import Mathlib

/-!
Verification of the TranslucentTB monitor/taskbar state machine
(`src/TranslucentTB/main.cpp`) against its natural-language specification.

The C++ core is shallowly embedded: machine integers become `Nat` with
explicit masking where overflow matters, the global `run` struct becomes an
explicit `RunState` value threaded through the functions, Win32 observations
(window visibility, monitors, the result of `Window::Find`) become explicit
inputs, and the side effects of each function (messages sent, compositing
calls issued) are returned as data.  `std::unordered_map<HMONITOR, ...>::at`,
which throws `std::out_of_range` on a missing key, is embedded as
`Except Unit`.
-/

namespace TTB

/-- Opaque window handle (`HWND` wrapped by the `Window` class). -/
abbrev Window := Nat

/-- Opaque monitor handle (`HMONITOR`). -/
abbrev HMONITOR := Nat

/-- `MONITORSTATE` from main.cpp: the per-monitor discrete visual state. -/
inductive MONITORSTATE
  | Normal
  | WindowMaximised
  | StartMenuOpen
deriving DecidableEq, Repr

/-- `EXITREASON` from main.cpp. -/
inductive EXITREASON
  | NewInstance
  | UserAction
  | UserActionNoSave
deriving DecidableEq, Repr

/-- `swca::ACCENT`: the closed set of compositing treatments used by main.cpp. -/
inductive ACCENT
  | ACCENT_NORMAL
  | ACCENT_ENABLE_GRADIENT
  | ACCENT_ENABLE_TRANSPARENTGRADIENT
  | ACCENT_ENABLE_BLURBEHIND
  | ACCENT_ENABLE_FLUENT
deriving DecidableEq, Repr

/-- `Config::PEEK`: the peek policy enumeration. -/
inductive PEEK
  | Enabled
  | DynamicGenerous
  | Dynamic
  | Disabled
deriving DecidableEq, Repr

/-- The window show states distinguished by `EnumWindowsProcess`
(`window.state()` is compared against `SW_MAXIMIZE` and `SW_SHOWMINIMIZED`). -/
inductive SHOWSTATE
  | SW_MAXIMIZE
  | SW_SHOWMINIMIZED
  | SW_OTHER
deriving DecidableEq, Repr

/-- The configuration values read by the core (`Config::` globals). -/
structure Config where
  DYNAMIC_WS : Bool
  DYNAMIC_START : Bool
  DYNAMIC_REGULAR_ON_PEEK : Bool
  DYNAMIC_USE_REGULAR_COLOR : Bool
  PEEK : PEEK
  TASKBAR_APPEARANCE : ACCENT
  DYNAMIC_APPEARANCE : ACCENT
  TASKBAR_COLOR : Nat
  DYNAMIC_COLOR : Nat
deriving DecidableEq, Repr

/-! ## SetWindowBlur -/

/-- The channel reordering performed when `SetWindowBlur` builds the
`swca::ACCENTPOLICY`:
`(color & 0xFF00FF00) + ((color & 0x00FF0000) >> 16) + ((color & 0x000000FF) << 16)`. -/
def swapRB (color : Nat) : Nat :=
  (color &&& 0xFF00FF00) + ((color &&& 0x00FF0000) >>> 16) + ((color &&& 0x000000FF) <<< 16)

/-- Observable effects of one `SetWindowBlur` call: whether `WM_THEMECHANGED`
was sent to the window, and the `SetWindowCompositionAttribute` call issued
(accent state and final `nColor`), if any. -/
structure SWBCall where
  themeChanged : Bool
  composited : Option (ACCENT × Nat)
deriving DecidableEq, Repr

/-- `SetWindowBlur(window, appearance, color)`.

`api` models the startup check `user32::SetWindowCompositionAttribute`
(entry point present); when it is `false` the whole body is skipped.
`is_normal` is the function's `static std::unordered_map<Window, bool>`,
embedded as `Window → Option Bool` (`none` = key absent).  Returns the
updated memo map together with the call's observable effects. -/
def SetWindowBlur (api : Bool) (is_normal : Window → Option Bool)
    (window : Window) (appearance : ACCENT) (color : Nat) :
    (Window → Option Bool) × SWBCall :=
  if api then
    let nColor := swapRB color
    if appearance = ACCENT.ACCENT_NORMAL then
      if is_normal window = none ∨ is_normal window = some false then
        (fun w => if w = window then some true else is_normal w,
         { themeChanged := true, composited := none })
      else
        (is_normal, { themeChanged := false, composited := none })
    else
      let nColor :=
        if appearance = ACCENT.ACCENT_ENABLE_FLUENT ∧ nColor >>> 24 = 0x00 then
          (0x01 <<< 24) + (nColor &&& 0x00FFFFFF)
        else nColor
      (fun w => if w = window then some false else is_normal w,
       { themeChanged := false, composited := some (appearance, nColor) })
  else
    (is_normal, { themeChanged := false, composited := none })

/-! ## TogglePeek -/

/-- The statics of `TogglePeek`: `cached_peek` and `cached_taskbar`. -/
structure PeekCache where
  cached_peek : Bool
  cached_taskbar : Window
deriving DecidableEq, Repr

/-- `TogglePeek(status)`.  Returns the updated cache and whether the OS-level
layered/transparent toggle on the peek button was issued for this call. -/
def TogglePeek (main_taskbar : Window) (cache : PeekCache) (status : Bool) :
    PeekCache × Bool :=
  if status ≠ cache.cached_peek ∨ cache.cached_taskbar ≠ main_taskbar then
    ({ cached_peek := status, cached_taskbar := main_taskbar }, true)
  else
    (cache, false)

/-! ## The taskbar map (`run.taskbars`) -/

/-- One entry of `run.taskbars`: monitor key, taskbar window, state. -/
abbrev TaskbarEntry := HMONITOR × Window × MONITORSTATE

/-- `std::unordered_map<HMONITOR, std::pair<Window, MONITORSTATE>>`,
embedded as an association list with unique keys. -/
abbrev TaskbarMap := List TaskbarEntry

/-- `map.at(k)`: throws (`Except.error`) when the key is absent. -/
def mapAt (m : TaskbarMap) (k : HMONITOR) : Except Unit (Window × MONITORSTATE) :=
  match m.find? (fun e => decide (e.1 = k)) with
  | some e => .ok e.2
  | none => .error ()

/-- Writing through the reference obtained from `map.at(k)`:
`map.at(k).second = s` (key known present). -/
def mapSetState (m : TaskbarMap) (k : HMONITOR) (s : MONITORSTATE) : TaskbarMap :=
  m.map (fun e => if e.1 = k then (e.1, e.2.1, s) else e)

/-- `map.at(k).second = s` including the throw on a missing key. -/
def mapAtSetState (m : TaskbarMap) (k : HMONITOR) (s : MONITORSTATE) :
    Except Unit TaskbarMap :=
  match mapAt m k with
  | .ok _ => .ok (mapSetState m k s)
  | .error e => .error e

/-- `map[k] = v`: insert-or-assign (`operator[]` followed by assignment). -/
def mapAssign (m : TaskbarMap) (k : HMONITOR) (v : Window × MONITORSTATE) : TaskbarMap :=
  if m.any (fun e => decide (e.1 = k)) then
    m.map (fun e => if e.1 = k then (k, v) else e)
  else
    m ++ [(k, v)]

/-- The per-pass reset loop: `taskbar.second.second = MONITORSTATE::Normal`
for every entry. -/
def resetAll (m : TaskbarMap) : TaskbarMap :=
  m.map (fun e => (e.1, e.2.1, MONITORSTATE.Normal))

/-! ## RefreshHandles -/

/-- `RefreshHandles()`.  `monitorOf` models `window.monitor()`;
`main_taskbar` is the `Shell_TrayWnd` found, `secondaries` the successive
`Shell_SecondaryTrayWnd` windows found by the while loop.  The old map
(`old`) is cleared before rediscovery.  Returns the new
`(run.main_taskbar, run.taskbars)`. -/
def RefreshHandles (monitorOf : Window → HMONITOR) (_old : TaskbarMap)
    (main_taskbar : Window) (secondaries : List Window) : Window × TaskbarMap :=
  let taskbars : TaskbarMap := []
  let taskbars := mapAssign taskbars (monitorOf main_taskbar) (main_taskbar, MONITORSTATE.Normal)
  let taskbars := secondaries.foldl
    (fun m s => mapAssign m (monitorOf s) (s, MONITORSTATE.Normal)) taskbars
  (main_taskbar, taskbars)

/-! ## Window enumeration -/

/-- The observations `EnumWindowsProcess` makes about one top-level window:
`window.visible()`, the `DWMWA_CLOAKED` attribute, `Blacklist::IsBlacklisted`,
`window.state()`, `window.on_current_desktop()`, `window.monitor()`, and the
`isRealWindow` predicate (an OS-query predicate over visibility, the
active-popup ownership chain, the title-bar accessibility state and the
tool-window style, taken here as an observation). -/
structure WinObs where
  visible : Bool
  cloaked : Bool
  blacklisted : Bool
  state : SHOWSTATE
  on_current_desktop : Bool
  monitor : HMONITOR
  isReal : Bool
deriving DecidableEq, Repr

/-- Does this window pass the visibility/cloaking/blacklist filter and count
as a maximised window on the current desktop on monitor `m`? -/
def maximisedOn (w : WinObs) (m : HMONITOR) : Bool :=
  w.visible && !w.cloaked && !w.blacklisted &&
    decide (w.state = SHOWSTATE.SW_MAXIMIZE) && w.on_current_desktop && decide (w.monitor = m)

/-- The body of `EnumWindowsProcess` for one window, acting on
`(run.taskbars, run.should_show_peek)`.  The `run.taskbars.at(...)` lookup
propagates `std::out_of_range` as `Except.error`. -/
def EnumWindowsProcess (cfg : Config) (main_taskbar : Window)
    (st : TaskbarMap × Bool) (w : WinObs) : Except Unit (TaskbarMap × Bool) :=
  if w.visible && !w.cloaked && !w.blacklisted then
    if w.state = SHOWSTATE.SW_MAXIMIZE ∧ w.on_current_desktop then
      match mapAt st.1 w.monitor with
      | .error e => .error e
      | .ok taskbar =>
        let taskbars :=
          if cfg.DYNAMIC_WS then mapSetState st.1 w.monitor MONITORSTATE.WindowMaximised
          else st.1
        let peek :=
          if (cfg.PEEK = PEEK.Dynamic ∨ cfg.PEEK = PEEK.DynamicGenerous) ∧
              taskbar.1 = main_taskbar then
            true
          else st.2
        .ok (taskbars, peek)
    else
      if cfg.PEEK = PEEK.DynamicGenerous ∧ st.2 = false ∧
          w.state ≠ SHOWSTATE.SW_SHOWMINIMIZED ∧ w.isReal then
        .ok (st.1, true)
      else
        .ok st
  else
    .ok st

/-- `EnumWindows(&EnumWindowsProcess, NULL)`: visit every top-level window in
order; an exception escaping the callback aborts the enumeration. -/
def EnumWindows (cfg : Config) (main_taskbar : Window) (st : TaskbarMap × Bool) :
    List WinObs → Except Unit (TaskbarMap × Bool)
  | [] => .ok st
  | w :: ws =>
    match EnumWindowsProcess cfg main_taskbar st w with
    | .error e => .error e
    | .ok st' => EnumWindows cfg main_taskbar st' ws

/-! ## SetTaskbarBlur (one poll-loop tick) -/

/-- The per-tick inputs read from the OS: the enumerated top-level windows,
`Util::IsStartVisible()`, the monitor of the Start menu's `CoreWindow`, and
the `run.peek_active` flag written by `HandleAeroPeekEvent`. -/
structure TickEnv where
  windows : List WinObs
  startVisible : Bool
  startMonitor : HMONITOR
  peek_active : Bool

/-- The mutable state of `run` used by `SetTaskbarBlur`, plus the statics of
`SetWindowBlur` and `TogglePeek`. -/
structure RunState where
  main_taskbar : Window
  taskbars : TaskbarMap
  should_show_peek : Bool
  is_normal : Window → Option Bool
  peekCache : PeekCache

/-- Observable effects of one `SetTaskbarBlur` invocation. -/
structure TickEffects where
  passRan : Bool
  enumRan : Bool
  togglePeekInvoked : Bool
  peekToggled : Bool
  applied : List (Window × ACCENT × Nat)
deriving DecidableEq, Repr

/-- The `SetWindowBlur` arguments chosen by the per-taskbar switch at the end
of `SetTaskbarBlur` for one taskbar entry's state. -/
def applyCall (cfg : Config) (t : Window × MONITORSTATE) : ACCENT × Nat :=
  match t.2 with
  | MONITORSTATE.StartMenuOpen => (ACCENT.ACCENT_NORMAL, 0)
  | MONITORSTATE.WindowMaximised =>
    (cfg.DYNAMIC_APPEARANCE,
     if cfg.DYNAMIC_USE_REGULAR_COLOR then cfg.TASKBAR_COLOR else cfg.DYNAMIC_COLOR)
  | MONITORSTATE.Normal => (cfg.TASKBAR_APPEARANCE, cfg.TASKBAR_COLOR)

/-- Folding the actual `SetWindowBlur` calls over the memo map. -/
def applyAll (api : Bool) (m : Window → Option Bool) :
    List (Window × ACCENT × Nat) → (Window → Option Bool)
  | [] => m
  | c :: cs => applyAll api (SetWindowBlur api m c.1 c.2.1 c.2.2).1 cs

/-- `Config::DYNAMIC_WS || Config::PEEK == Dynamic || Config::PEEK ==
DynamicGenerous`: the condition under which the reconciliation pass runs
`EnumWindows`. -/
def dynOn (cfg : Config) : Bool :=
  cfg.DYNAMIC_WS || decide (cfg.PEEK = PEEK.Dynamic) ||
    decide (cfg.PEEK = PEEK.DynamicGenerous)

/-- The conditional `EnumWindows(&EnumWindowsProcess, NULL)` call of the
reconciliation pass. -/
def enumStage (cfg : Config) (main_taskbar : Window) (env : TickEnv)
    (tb0 : TaskbarMap) (ssp0 : Bool) : Except Unit (TaskbarMap × Bool) :=
  if dynOn cfg then EnumWindows cfg main_taskbar (tb0, ssp0) env.windows
  else .ok (tb0, ssp0)

/-- The dynamic-start step of the pass: mark the monitor hosting the Start
menu's `CoreWindow` as `StartMenuOpen` (another `at` lookup that throws). -/
def startStage (cfg : Config) (env : TickEnv) (tb1 : TaskbarMap) :
    Except Unit TaskbarMap :=
  if cfg.DYNAMIC_START && env.startVisible then
    mapAtSetState tb1 env.startMonitor MONITORSTATE.StartMenuOpen
  else .ok tb1

/-- The post-scan peek rule: while the user actively peeks (and
`DYNAMIC_REGULAR_ON_PEEK` is configured), force every state back to
`Normal`. -/
def peekResetStage (cfg : Config) (env : TickEnv) (tb2 : TaskbarMap) : TaskbarMap :=
  if cfg.DYNAMIC_WS && cfg.DYNAMIC_REGULAR_ON_PEEK && env.peek_active then resetAll tb2
  else tb2

/-- `SetTaskbarBlur()` for one tick, with the static `counter` passed
explicitly.  When `counter >= 10` the reconciliation pass runs: reset every
state to `Normal`, enumerate windows if dynamic windows or a dynamic peek
policy is configured, call `TogglePeek`, mark the Start menu's monitor if
dynamic start is on and Start is visible, and reset everything to `Normal`
again while the user is actively peeking (if so configured).  On every tick
the final loop issues one `SetWindowBlur` per taskbar.  The two
`run.taskbars.at(...)` lookups propagate `std::out_of_range`. -/
def SetTaskbarBlur (api : Bool) (cfg : Config) (env : TickEnv)
    (counter : Nat) (st : RunState) :
    Except Unit (Nat × RunState × TickEffects) :=
  if 10 ≤ counter then
    match enumStage cfg st.main_taskbar env (resetAll st.taskbars)
        (decide (cfg.PEEK = PEEK.Enabled)) with
    | .error e => .error e
    | .ok (tb1, ssp1) =>
      let peekRes := TogglePeek st.main_taskbar st.peekCache ssp1
      match startStage cfg env tb1 with
      | .error e => .error e
      | .ok tb2 =>
        let tb3 := peekResetStage cfg env tb2
        let calls := tb3.map (fun e => (e.2.1, applyCall cfg e.2))
        .ok (1,
          { st with taskbars := tb3, should_show_peek := ssp1, peekCache := peekRes.1,
                    is_normal := applyAll api st.is_normal calls },
          { passRan := true, enumRan := dynOn cfg, togglePeekInvoked := true,
            peekToggled := peekRes.2, applied := calls })
  else
    let calls := st.taskbars.map (fun e => (e.2.1, applyCall cfg e.2))
    .ok (counter + 1,
      { st with is_normal := applyAll api st.is_normal calls },
      { passRan := false, enumRan := false, togglePeekInvoked := false,
        peekToggled := false, applied := calls })

/-- Projection of a tick result used to state theorems: the new counter, the
new taskbar map and the effects (`none` when the tick threw). -/
def tickView (r : Except Unit (Nat × RunState × TickEffects)) :
    Option (Nat × TaskbarMap × TickEffects) :=
  match r with
  | .ok x => some (x.1, x.2.1.taskbars, x.2.2)
  | .error _ => none

/-! ## Shutdown (end of wWinMain) -/

/-- Observable effects of the code after the message loop in `wWinMain`. -/
structure ShutdownEffects where
  savedConfig : Bool
  peekRestored : Bool
  resetCalls : List (Window × ACCENT × Nat)
deriving DecidableEq, Repr

/-- The exit path of `wWinMain`: skip everything for a new instance;
otherwise save the configuration unless exiting without saving, then
`TogglePeek(true)` and one `SetWindowBlur(taskbar, ACCENT_NORMAL, NULL)`
per taskbar. -/
def wWinMainShutdown (reason : EXITREASON) (taskbars : TaskbarMap) : ShutdownEffects :=
  if reason ≠ EXITREASON.NewInstance then
    { savedConfig := if reason ≠ EXITREASON.UserActionNoSave then true else false
      peekRestored := true
      resetCalls := taskbars.map (fun e => (e.2.1, ACCENT.ACCENT_NORMAL, 0)) }
  else
    { savedConfig := false, peekRestored := false, resetCalls := [] }

/-! ## Arithmetic facts about the color transform -/

theorem and_mask_byte (c k n : ℕ) :
    c &&& ((2 ^ k - 1) <<< n) = c / 2 ^ n % 2 ^ k * 2 ^ n := by
  rw [← Nat.shiftLeft_eq, ← Nat.shiftRight_eq_div_pow]
  apply Nat.eq_of_testBit_eq
  intro i
  simp only [Nat.testBit_and, Nat.testBit_shiftLeft, Nat.testBit_two_pow_sub_one,
    Nat.testBit_mod_two_pow, Nat.testBit_shiftRight]
  by_cases h : n ≤ i
  · simp [h, Nat.add_sub_cancel' h, Bool.and_comm]
  · simp [h]

theorem and_lowByte (c : ℕ) : c &&& 0x000000FF = c % 2 ^ 8 := by
  have h : (0x000000FF : ℕ) = 2 ^ 8 - 1 := by norm_num
  rw [h, Nat.and_pow_two_sub_one_eq_mod]

theorem and_low24 (c : ℕ) : c &&& 0x00FFFFFF = c % 2 ^ 24 := by
  have h : (0x00FFFFFF : ℕ) = 2 ^ 24 - 1 := by norm_num
  rw [h, Nat.and_pow_two_sub_one_eq_mod]

theorem and_redByte (c : ℕ) : c &&& 0x00FF0000 = c / 2 ^ 16 % 2 ^ 8 * 2 ^ 16 := by
  have h : (0x00FF0000 : ℕ) = (2 ^ 8 - 1) <<< 16 := by norm_num [Nat.shiftLeft_eq]
  rw [h, and_mask_byte]

theorem and_alphaGreen (c : ℕ) :
    c &&& 0xFF00FF00 = c / 2 ^ 24 % 2 ^ 8 * 2 ^ 24 + c / 2 ^ 8 % 2 ^ 8 * 2 ^ 8 := by
  have hsplit : (0xFF00FF00 : ℕ) = (2 ^ 8 - 1) <<< 24 ||| (2 ^ 8 - 1) <<< 8 := by
    have h := Nat.mul_add_lt_is_or
      (show (2 ^ 8 - 1) <<< 8 < 2 ^ 24 by norm_num [Nat.shiftLeft_eq]) (2 ^ 8 - 1)
    norm_num [Nat.shiftLeft_eq] at h ⊢
    exact h
  rw [hsplit, Nat.and_or_distrib_left, and_mask_byte, and_mask_byte]
  have hb : c / 2 ^ 8 % 2 ^ 8 * 2 ^ 8 < 2 ^ 24 := by
    have h8 : c / 2 ^ 8 % 2 ^ 8 < 2 ^ 8 := Nat.mod_lt _ (by norm_num)
    omega
  calc c / 2 ^ 24 % 2 ^ 8 * 2 ^ 24 ||| c / 2 ^ 8 % 2 ^ 8 * 2 ^ 8
      = 2 ^ 24 * (c / 2 ^ 24 % 2 ^ 8) ||| c / 2 ^ 8 % 2 ^ 8 * 2 ^ 8 := by
        rw [Nat.mul_comm]
    _ = 2 ^ 24 * (c / 2 ^ 24 % 2 ^ 8) + c / 2 ^ 8 % 2 ^ 8 * 2 ^ 8 :=
        (Nat.mul_add_lt_is_or hb _).symm
    _ = c / 2 ^ 24 % 2 ^ 8 * 2 ^ 24 + c / 2 ^ 8 % 2 ^ 8 * 2 ^ 8 := by
        rw [Nat.mul_comm]

/-- `swapRB` in byte-lane form: the alpha and green lanes stay in place and
the red and blue lanes swap. -/
theorem swapRB_eq (c : ℕ) :
    swapRB c = c / 2 ^ 24 % 2 ^ 8 * 2 ^ 24 + c % 2 ^ 8 * 2 ^ 16
      + c / 2 ^ 8 % 2 ^ 8 * 2 ^ 8 + c / 2 ^ 16 % 2 ^ 8 := by
  unfold swapRB
  rw [and_alphaGreen, and_redByte, and_lowByte,
    Nat.shiftRight_eq_div_pow, Nat.shiftLeft_eq,
    Nat.mul_div_cancel _ (show 0 < 2 ^ 16 by norm_num)]
  omega

/-- The byte lanes of `swapRB c`: alpha and green in place, red and blue
swapped. -/
theorem swapRB_lanes (c : ℕ) :
    swapRB c / 2 ^ 24 % 2 ^ 8 = c / 2 ^ 24 % 2 ^ 8
    ∧ swapRB c / 2 ^ 8 % 2 ^ 8 = c / 2 ^ 8 % 2 ^ 8
    ∧ swapRB c / 2 ^ 16 % 2 ^ 8 = c % 2 ^ 8
    ∧ swapRB c % 2 ^ 8 = c / 2 ^ 16 % 2 ^ 8 := by
  obtain ⟨A, R, G, B, hA, hR, hG, hB, hsum, hAd, hRd, hGd, hBd⟩ :
      ∃ A R G B, A < 2 ^ 8 ∧ R < 2 ^ 8 ∧ G < 2 ^ 8 ∧ B < 2 ^ 8 ∧
        swapRB c = A * 2 ^ 24 + B * 2 ^ 16 + G * 2 ^ 8 + R ∧
        c / 2 ^ 24 % 2 ^ 8 = A ∧ c / 2 ^ 16 % 2 ^ 8 = R ∧
        c / 2 ^ 8 % 2 ^ 8 = G ∧ c % 2 ^ 8 = B :=
    ⟨_, _, _, _, Nat.mod_lt _ (by norm_num), Nat.mod_lt _ (by norm_num),
      Nat.mod_lt _ (by norm_num), Nat.mod_lt _ (by norm_num), swapRB_eq c,
      rfl, rfl, rfl, rfl⟩
  rw [hAd, hRd, hGd, hBd]
  clear hAd hRd hGd hBd
  exact ⟨by omega, by omega, by omega, by omega⟩

/-- `swapRB` on an explicit four-byte decomposition. -/
theorem swapRB_digits (A R G B : ℕ) (hA : A < 2 ^ 8) (hR : R < 2 ^ 8)
    (hG : G < 2 ^ 8) (hB : B < 2 ^ 8) :
    swapRB (A * 2 ^ 24 + R * 2 ^ 16 + G * 2 ^ 8 + B)
      = A * 2 ^ 24 + B * 2 ^ 16 + G * 2 ^ 8 + R := by
  rw [swapRB_eq]
  omega

/-! ## Helper lemmas about the taskbar map operations -/

theorem mem_resetAll {m : TaskbarMap} {e : TaskbarEntry} (he : e ∈ resetAll m) :
    e.2.2 = MONITORSTATE.Normal ∧ ∃ s₀, (e.1, e.2.1, s₀) ∈ m := by
  rcases List.mem_map.mp he with ⟨a, ha, rfl⟩
  exact ⟨rfl, a.2.2, ha⟩

theorem mem_mapSetState {m : TaskbarMap} {k : HMONITOR} {s : MONITORSTATE}
    {e : TaskbarEntry} (he : e ∈ mapSetState m k s) :
    ∃ s₀, (e.1, e.2.1, s₀) ∈ m ∧ (e.2.2 = s₀ ∨ (e.2.2 = s ∧ e.1 = k)) := by
  rcases List.mem_map.mp he with ⟨a, ha, hfa⟩
  by_cases hk : a.1 = k
  · rw [if_pos hk] at hfa
    subst hfa
    exact ⟨a.2.2, ha, Or.inr ⟨rfl, hk⟩⟩
  · rw [if_neg hk] at hfa
    subst hfa
    exact ⟨a.2.2, ha, Or.inl rfl⟩

theorem mem_mapAtSetState {m m' : TaskbarMap} {k : HMONITOR} {s : MONITORSTATE}
    (h : mapAtSetState m k s = .ok m') {e : TaskbarEntry} (he : e ∈ m') :
    ∃ s₀, (e.1, e.2.1, s₀) ∈ m ∧ (e.2.2 = s₀ ∨ (e.2.2 = s ∧ e.1 = k)) := by
  unfold mapAtSetState at h
  rcases hat : mapAt m k with _ | x <;> rw [hat] at h
  · cases h
  · cases h
    exact mem_mapSetState he

/-- Provenance of one `EnumWindowsProcess` step: every entry of the output
map comes from an entry of the input map with the same key and window, whose
state is unchanged unless the visited window is maximised on the current
desktop on that entry's monitor and dynamic windows is enabled. -/
theorem enum_step_entries {cfg : Config} {main : Window} {st : TaskbarMap × Bool}
    {w : WinObs} {st' : TaskbarMap × Bool}
    (h : EnumWindowsProcess cfg main st w = .ok st') :
    ∀ e ∈ st'.1, ∃ s₀, (e.1, e.2.1, s₀) ∈ st.1 ∧
      (e.2.2 = s₀ ∨ (e.2.2 = MONITORSTATE.WindowMaximised ∧
        cfg.DYNAMIC_WS = true ∧ maximisedOn w e.1 = true)) := by
  intro e he
  unfold EnumWindowsProcess at h
  by_cases h1 : (w.visible && !w.cloaked && !w.blacklisted) = true
  · rw [if_pos h1] at h
    by_cases h2 : w.state = SHOWSTATE.SW_MAXIMIZE ∧ w.on_current_desktop = true
    · rw [if_pos h2] at h
      rcases hat : mapAt st.1 w.monitor with _ | tbar <;> rw [hat] at h
      · cases h
      · cases h
        by_cases hdw : cfg.DYNAMIC_WS = true
        · rw [if_pos hdw] at he
          rcases mem_mapSetState he with ⟨s₀, hmem, hcase⟩
          refine ⟨s₀, hmem, ?_⟩
          rcases hcase with h' | ⟨h', hk⟩
          · exact Or.inl h'
          · refine Or.inr ⟨h', hdw, ?_⟩
            simp only [maximisedOn, Bool.and_eq_true, decide_eq_true_eq] at h1 ⊢
            exact ⟨⟨⟨⟨⟨h1.1.1, h1.1.2⟩, h1.2⟩, h2.1⟩, h2.2⟩, hk.symm⟩
        · rw [if_neg hdw] at he
          exact ⟨e.2.2, by simpa using he, Or.inl rfl⟩
    · rw [if_neg h2] at h
      by_cases h3 : cfg.PEEK = PEEK.DynamicGenerous ∧ st.2 = false ∧
          w.state ≠ SHOWSTATE.SW_SHOWMINIMIZED ∧ w.isReal = true
      · rw [if_pos h3] at h
        cases h
        exact ⟨e.2.2, by simpa using he, Or.inl rfl⟩
      · rw [if_neg h3] at h
        cases h
        exact ⟨e.2.2, by simpa using he, Or.inl rfl⟩
  · rw [if_neg h1] at h
    cases h
    exact ⟨e.2.2, by simpa using he, Or.inl rfl⟩

/-- Provenance across a whole enumeration. -/
theorem enum_entries {cfg : Config} {main : Window} :
    ∀ (ws : List WinObs) (st st' : TaskbarMap × Bool),
      EnumWindows cfg main st ws = .ok st' →
      ∀ e ∈ st'.1, ∃ s₀, (e.1, e.2.1, s₀) ∈ st.1 ∧
        (e.2.2 = s₀ ∨ (e.2.2 = MONITORSTATE.WindowMaximised ∧
          cfg.DYNAMIC_WS = true ∧ ∃ w ∈ ws, maximisedOn w e.1 = true))
  | [], st, st', h => by
    cases h
    exact fun e he => ⟨e.2.2, by simpa using he, Or.inl rfl⟩
  | w :: ws, st, st', h => by
    intro e he
    unfold EnumWindows at h
    rcases hstep : EnumWindowsProcess cfg main st w with _ | st₁ <;> rw [hstep] at h
    · cases h
    · rcases enum_entries ws st₁ st' h e he with ⟨s₁, hmem₁, hcase₁⟩
      rcases enum_step_entries hstep (e.1, e.2.1, s₁) hmem₁ with ⟨s₀, hmem₀, hcase₀⟩
      refine ⟨s₀, hmem₀, ?_⟩
      rcases hcase₁ with h₁ | ⟨h₁, hdw, w', hw', hmax⟩
      · rcases hcase₀ with h₀ | ⟨h₀, hdw, hmax⟩
        · exact Or.inl (h₁.trans h₀)
        · exact Or.inr ⟨h₁.trans h₀, hdw, w, List.mem_cons_self w ws, hmax⟩
      · exact Or.inr ⟨h₁, hdw, w', List.mem_cons_of_mem w hw', hmax⟩

theorem enumStage_entries {cfg : Config} {main : Window} {env : TickEnv}
    {tb0 tb1 : TaskbarMap} {ssp0 ssp1 : Bool}
    (h : enumStage cfg main env tb0 ssp0 = .ok (tb1, ssp1)) :
    ∀ e ∈ tb1, ∃ s₀, (e.1, e.2.1, s₀) ∈ tb0 ∧
      (e.2.2 = s₀ ∨ (e.2.2 = MONITORSTATE.WindowMaximised ∧
        cfg.DYNAMIC_WS = true ∧ ∃ w ∈ env.windows, maximisedOn w e.1 = true)) := by
  unfold enumStage at h
  by_cases hd : dynOn cfg = true
  · rw [if_pos hd] at h
    exact fun e he => enum_entries env.windows (tb0, ssp0) (tb1, ssp1) h e he
  · rw [if_neg hd] at h
    cases h
    exact fun e he => ⟨e.2.2, by simpa using he, Or.inl rfl⟩

/-- Provenance across a whole reconciliation pass: starting from the reset
map, an entry can end `Normal`, or `WindowMaximised` because of an observed
maximised window with dynamic windows on, or `StartMenuOpen` because of the
dynamic-start step. -/
theorem pass_taskbars_provenance {cfg : Config} {env : TickEnv} {main : Window}
    {tb tb1 tb2 : TaskbarMap} {ssp0 ssp1 : Bool}
    (h1 : enumStage cfg main env (resetAll tb) ssp0 = .ok (tb1, ssp1))
    (h2 : startStage cfg env tb1 = .ok tb2) :
    ∀ e ∈ peekResetStage cfg env tb2,
      e.2.2 = MONITORSTATE.Normal ∨
      (e.2.2 = MONITORSTATE.WindowMaximised ∧ cfg.DYNAMIC_WS = true ∧
        ∃ w ∈ env.windows, maximisedOn w e.1 = true) ∨
      (e.2.2 = MONITORSTATE.StartMenuOpen ∧ cfg.DYNAMIC_START = true ∧
        env.startVisible = true ∧ env.startMonitor = e.1) := by
  have P1 : ∀ e ∈ tb1, e.2.2 = MONITORSTATE.Normal ∨
      (e.2.2 = MONITORSTATE.WindowMaximised ∧ cfg.DYNAMIC_WS = true ∧
        ∃ w ∈ env.windows, maximisedOn w e.1 = true) := by
    intro e he
    rcases enumStage_entries h1 e he with ⟨s₀, hmem, hcase⟩
    rcases hcase with h' | h'
    · left
      rw [h']
      exact (mem_resetAll hmem).1
    · right
      exact h'
  have P2 : ∀ e ∈ tb2, e.2.2 = MONITORSTATE.Normal ∨
      (e.2.2 = MONITORSTATE.WindowMaximised ∧ cfg.DYNAMIC_WS = true ∧
        ∃ w ∈ env.windows, maximisedOn w e.1 = true) ∨
      (e.2.2 = MONITORSTATE.StartMenuOpen ∧ cfg.DYNAMIC_START = true ∧
        env.startVisible = true ∧ env.startMonitor = e.1) := by
    intro e he
    unfold startStage at h2
    by_cases hs : (cfg.DYNAMIC_START && env.startVisible) = true
    · rw [if_pos hs] at h2
      rcases mem_mapAtSetState h2 he with ⟨s₀, hmem, hcase⟩
      rcases hcase with h' | ⟨h', hk⟩
      · rcases P1 (e.1, e.2.1, s₀) hmem with hn | hm
        · left
          rw [h']
          exact hn
        · right; left
          exact ⟨h'.trans hm.1, hm.2.1, hm.2.2⟩
      · right; right
        rw [Bool.and_eq_true] at hs
        exact ⟨h', hs.1, hs.2, hk.symm⟩
    · rw [if_neg hs] at h2
      cases h2
      rcases P1 e he with hn | hm
      · exact Or.inl hn
      · exact Or.inr (Or.inl hm)
  intro e he
  unfold peekResetStage at he
  by_cases hp : (cfg.DYNAMIC_WS && cfg.DYNAMIC_REGULAR_ON_PEEK && env.peek_active) = true
  · rw [if_pos hp] at he
    exact Or.inl (mem_resetAll he).1
  · rw [if_neg hp] at he
    exact P2 e he

/-- Decomposition of a successful tick on which the pass runs. -/
theorem tick_pass_decomp {api : Bool} {cfg : Config} {env : TickEnv}
    {counter : Nat} {st : RunState} {v : Nat × TaskbarMap × TickEffects}
    (hc : 10 ≤ counter)
    (hv : tickView (SetTaskbarBlur api cfg env counter st) = some v) :
    ∃ tb1 ssp1 tb2,
      enumStage cfg st.main_taskbar env (resetAll st.taskbars)
        (decide (cfg.PEEK = PEEK.Enabled)) = .ok (tb1, ssp1) ∧
      startStage cfg env tb1 = .ok tb2 ∧
      v = (1, peekResetStage cfg env tb2,
        { passRan := true, enumRan := dynOn cfg, togglePeekInvoked := true,
          peekToggled := (TogglePeek st.main_taskbar st.peekCache ssp1).2,
          applied := (peekResetStage cfg env tb2).map
            (fun e => (e.2.1, applyCall cfg e.2)) }) := by
  unfold SetTaskbarBlur at hv
  rw [if_pos hc] at hv
  rcases h1 : enumStage cfg st.main_taskbar env (resetAll st.taskbars)
      (decide (cfg.PEEK = PEEK.Enabled)) with _ | p
  · rw [h1] at hv
    simp [tickView] at hv
  · obtain ⟨tb1, ssp1⟩ := p
    rw [h1] at hv
    dsimp only at hv
    rcases h2 : startStage cfg env tb1 with _ | tb2
    · rw [h2] at hv
      simp [tickView] at hv
    · rw [h2] at hv
      refine ⟨tb1, ssp1, tb2, rfl, h2, ?_⟩
      simp only [tickView, Option.some.injEq] at hv
      exact hv.symm

/-- A tick on which no pass runs: the taskbar map is untouched and the apply
loop still runs over every entry. -/
theorem tick_nopass {api : Bool} {cfg : Config} {env : TickEnv}
    {counter : Nat} {st : RunState} (hc : ¬ 10 ≤ counter) :
    tickView (SetTaskbarBlur api cfg env counter st) =
      some (counter + 1, st.taskbars,
        { passRan := false, enumRan := false, togglePeekInvoked := false,
          peekToggled := false,
          applied := st.taskbars.map (fun e => (e.2.1, applyCall cfg e.2)) }) := by
  unfold SetTaskbarBlur tickView
  rw [if_neg hc]

/-! ## Helper lemmas about `mapAssign` (used by `RefreshHandles`) -/

theorem mem_mapAssign {m : TaskbarMap} {k : HMONITOR} {v : Window × MONITORSTATE}
    {e : TaskbarEntry} (he : e ∈ mapAssign m k v) : e = (k, v) ∨ e ∈ m := by
  unfold mapAssign at he
  by_cases ha : m.any (fun e => decide (e.1 = k)) = true
  · rw [if_pos ha] at he
    rcases List.mem_map.mp he with ⟨a, ha', hfa⟩
    by_cases hk : a.1 = k
    · rw [if_pos hk] at hfa
      exact Or.inl hfa.symm
    · rw [if_neg hk] at hfa
      exact Or.inr (hfa ▸ ha')
  · rw [if_neg ha] at he
    rcases List.mem_append.mp he with h | h
    · exact Or.inr h
    · exact Or.inl (List.mem_singleton.mp h)

theorem mapAssign_key_present (m : TaskbarMap) (k : HMONITOR) (v : Window × MONITORSTATE) :
    ∃ e ∈ mapAssign m k v, e.1 = k := by
  unfold mapAssign
  by_cases ha : m.any (fun e => decide (e.1 = k)) = true
  · rw [if_pos ha]
    rcases List.any_eq_true.mp ha with ⟨a, ha', hk⟩
    rw [decide_eq_true_eq] at hk
    refine ⟨(k, v), List.mem_map.mpr ⟨a, ha', ?_⟩, rfl⟩
    rw [if_pos hk]
  · rw [if_neg ha]
    exact ⟨(k, v), List.mem_append_right _ (List.mem_singleton.mpr rfl), rfl⟩

theorem mapAssign_preserved {m : TaskbarMap} {k : HMONITOR} {v : Window × MONITORSTATE}
    {e : TaskbarEntry} (he : e ∈ m) (hk : e.1 ≠ k) : e ∈ mapAssign m k v := by
  unfold mapAssign
  by_cases ha : m.any (fun e => decide (e.1 = k)) = true
  · rw [if_pos ha]
    refine List.mem_map.mpr ⟨e, he, ?_⟩
    rw [if_neg hk]
  · rw [if_neg ha]
    exact List.mem_append_left _ he

theorem mapAssign_key_stays {m : TaskbarMap} {k k' : HMONITOR}
    {v : Window × MONITORSTATE} (h : ∃ e ∈ m, e.1 = k') :
    ∃ e ∈ mapAssign m k v, e.1 = k' := by
  by_cases hk : k' = k
  · subst hk
    exact mapAssign_key_present m k' v
  · rcases h with ⟨e, he, hek⟩
    exact ⟨e, mapAssign_preserved he (by rw [hek]; exact hk), hek⟩

theorem nodup_keys_mapAssign {m : TaskbarMap} {k : HMONITOR} {v : Window × MONITORSTATE}
    (h : (m.map (fun e => e.1)).Nodup) :
    ((mapAssign m k v).map (fun e => e.1)).Nodup := by
  unfold mapAssign
  by_cases ha : m.any (fun e => decide (e.1 = k)) = true
  · rw [if_pos ha, List.map_map]
    have hkeys : m.map ((fun e : TaskbarEntry => e.1) ∘ fun e => if e.1 = k then (k, v) else e)
        = m.map (fun e => e.1) := by
      apply List.map_congr_left
      intro a _
      by_cases hk : a.1 = k
      · simp [Function.comp, hk]
      · simp [Function.comp, hk]
    rw [hkeys]
    exact h
  · rw [if_neg ha, List.map_append]
    refine List.Nodup.append h (List.nodup_singleton k) ?_
    intro x hx hx'
    rcases List.mem_map.mp hx with ⟨a, ha', rfl⟩
    rw [List.map_singleton, List.mem_singleton] at hx'
    exact absurd (List.any_eq_true.mpr ⟨a, ha', by rw [decide_eq_true_eq]; exact hx'⟩) ha

/-! ## Helper lemmas about the `RefreshHandles` discovery fold -/

theorem refresh_fold_mem {monitorOf : Window → HMONITOR} :
    ∀ (secs : List Window) (m : TaskbarMap) (e : TaskbarEntry),
      e ∈ secs.foldl (fun acc s => mapAssign acc (monitorOf s) (s, MONITORSTATE.Normal)) m →
      e ∈ m ∨ ∃ s ∈ secs, e = (monitorOf s, s, MONITORSTATE.Normal)
  | [], _, _, he => Or.inl he
  | s :: ss, m, e, he => by
    rcases refresh_fold_mem ss _ e he with h | ⟨s', hs', rfl⟩
    · rcases mem_mapAssign h with h' | h'
      · exact Or.inr ⟨s, List.mem_cons_self s ss, h'⟩
      · exact Or.inl h'
    · exact Or.inr ⟨s', List.mem_cons_of_mem _ hs', rfl⟩

theorem refresh_fold_key_complete {monitorOf : Window → HMONITOR} :
    ∀ (secs : List Window) (m : TaskbarMap) (k' : HMONITOR),
      ((∃ e ∈ m, e.1 = k') ∨ ∃ s ∈ secs, monitorOf s = k') →
      ∃ e ∈ secs.foldl (fun acc s => mapAssign acc (monitorOf s) (s, MONITORSTATE.Normal)) m,
        e.1 = k'
  | [], _, _, h => by
    rcases h with h | ⟨_, h', _⟩
    · exact h
    · cases h'
  | _s :: ss, m, k', h => by
    rcases h with h | ⟨s', hs', hk⟩
    · exact refresh_fold_key_complete ss _ k' (Or.inl (mapAssign_key_stays h))
    · rcases List.mem_cons.mp hs' with rfl | hs''
      · exact refresh_fold_key_complete ss _ k'
          (Or.inl (hk ▸ mapAssign_key_present m (monitorOf s') (s', MONITORSTATE.Normal)))
      · exact refresh_fold_key_complete ss _ k' (Or.inr ⟨s', hs'', hk⟩)

theorem refresh_fold_nodup {monitorOf : Window → HMONITOR} :
    ∀ (secs : List Window) (m : TaskbarMap),
      (m.map (fun e => e.1)).Nodup →
      ((secs.foldl (fun acc s => mapAssign acc (monitorOf s) (s, MONITORSTATE.Normal)) m).map
        (fun e => e.1)).Nodup
  | [], _, h => h
  | _ :: ss, _, h => refresh_fold_nodup ss _ (nodup_keys_mapAssign h)

/-! ## Characterization lemmas for `SetWindowBlur` -/

theorem swb_memo_cases (m : Window → Option Bool) (w : Window) :
    m w = some true ∨ (m w = none ∨ m w = some false) := by
  rcases hm : m w with _ | b
  · exact Or.inr (Or.inl rfl)
  · cases b
    · exact Or.inr (Or.inr rfl)
    · exact Or.inl rfl

theorem swb_normal_skip (m : Window → Option Bool) (w : Window) (c : ℕ)
    (h : m w = some true) :
    SetWindowBlur true m w ACCENT.ACCENT_NORMAL c
      = (m, { themeChanged := false, composited := none }) := by
  simp [SetWindowBlur, h]

theorem swb_normal_send (m : Window → Option Bool) (w : Window) (c : ℕ)
    (h : m w = none ∨ m w = some false) :
    SetWindowBlur true m w ACCENT.ACCENT_NORMAL c
      = (fun w' => if w' = w then some true else m w',
         { themeChanged := true, composited := none }) := by
  simp [SetWindowBlur, h]

theorem swb_normal_memo_true (m : Window → Option Bool) (w : Window) (c : ℕ) :
    (SetWindowBlur true m w ACCENT.ACCENT_NORMAL c).1 w = some true := by
  rcases swb_memo_cases m w with h | h
  · rw [swb_normal_skip m w c h]
    exact h
  · rw [swb_normal_send m w c h]
    simp

theorem swb_nonnormal_memo (m : Window → Option Bool) (w : Window) (c : ℕ)
    (a : ACCENT) (ha : a ≠ ACCENT.ACCENT_NORMAL) :
    (SetWindowBlur true m w a c).1 w = some false := by
  simp [SetWindowBlur, ha]

theorem swb_other_accent (m : Window → Option Bool) (w : Window) (c : ℕ)
    (a : ACCENT) (h1 : a ≠ ACCENT.ACCENT_NORMAL) (h2 : a ≠ ACCENT.ACCENT_ENABLE_FLUENT) :
    SetWindowBlur true m w a c
      = (fun w' => if w' = w then some false else m w',
         { themeChanged := false, composited := some (a, swapRB c) }) := by
  simp [SetWindowBlur, h1, h2]

/-! ## Claims -/

/-- Claim C2: for every 32-bit ARGB color input `0xAARRGGBB`, the value
`SetWindowBlur` places in the compositing policy's color field is the byte
pattern `0xAABBGGRR`: the alpha and green byte lanes are unchanged and the
red and blue byte lanes are swapped; in particular `0xFFFFFFFF`,
`0x00000000`, `0xFF0000FF` and `0xFFFF0000` map to `0xFFFFFFFF`,
`0x00000000`, `0xFFFF0000` and `0xFF0000FF` respectively. -/
theorem C2_color_reorder (m : Window → Option Bool) (w : Window) (c : ℕ)
    (hc : c < 2 ^ 32) :
    (SetWindowBlur true m w ACCENT.ACCENT_ENABLE_BLURBEHIND c).2.composited
        = some (ACCENT.ACCENT_ENABLE_BLURBEHIND, swapRB c)
    ∧ swapRB c = c / 2 ^ 24 * 2 ^ 24 + c % 2 ^ 8 * 2 ^ 16
        + c / 2 ^ 8 % 2 ^ 8 * 2 ^ 8 + c / 2 ^ 16 % 2 ^ 8
    ∧ swapRB c / 2 ^ 24 % 2 ^ 8 = c / 2 ^ 24 % 2 ^ 8
    ∧ swapRB c / 2 ^ 8 % 2 ^ 8 = c / 2 ^ 8 % 2 ^ 8
    ∧ swapRB c / 2 ^ 16 % 2 ^ 8 = c % 2 ^ 8
    ∧ swapRB c % 2 ^ 8 = c / 2 ^ 16 % 2 ^ 8
    ∧ swapRB 0xFFFFFFFF = 0xFFFFFFFF
    ∧ swapRB 0x00000000 = 0x00000000
    ∧ swapRB 0xFF0000FF = 0xFFFF0000
    ∧ swapRB 0xFFFF0000 = 0xFF0000FF := by
  have h := swapRB_eq c
  have hl := swapRB_lanes c
  exact ⟨by simp [SetWindowBlur], by omega, hl.1, hl.2.1, hl.2.2.1, hl.2.2.2,
    by decide, by decide, by decide, by decide⟩

/-- Witness for C2 at the concrete color `0xAA112233`. -/
theorem C2_witness :
    (0xAA112233 : ℕ) < 2 ^ 32 ∧
    TTB.swapRB 0xAA112233 % 2 ^ 8 = 0xAA112233 / 2 ^ 16 % 2 ^ 8 :=
  ⟨by decide, (C2_color_reorder (fun _ => none) 0 0xAA112233 (by decide)).2.2.2.2.2.1⟩

/-- Claim C10: the red/blue channel reordering of `SetWindowBlur` is an
involution: applying `swapRB` twice to any 32-bit value yields the value
back. -/
theorem C10_swap_involution (c : ℕ) (hc : c < 2 ^ 32) : swapRB (swapRB c) = c := by
  obtain ⟨A, R, G, B, hA, hR, hG, hB, rfl⟩ :
      ∃ A R G B, A < 2 ^ 8 ∧ R < 2 ^ 8 ∧ G < 2 ^ 8 ∧ B < 2 ^ 8 ∧
        c = A * 2 ^ 24 + R * 2 ^ 16 + G * 2 ^ 8 + B :=
    ⟨c / 2 ^ 24, c / 2 ^ 16 % 2 ^ 8, c / 2 ^ 8 % 2 ^ 8, c % 2 ^ 8,
      by omega, by omega, by omega, by omega, by omega⟩
  rw [swapRB_digits A R G B hA hR hG hB, swapRB_digits A B G R hA hB hG hR]

/-- Witness for C10 at the concrete color `0x12345678`. -/
theorem C10_witness :
    (0x12345678 : ℕ) < 2 ^ 32 ∧ TTB.swapRB (TTB.swapRB 0x12345678) = 0x12345678 :=
  ⟨by decide, C10_swap_involution 0x12345678 (by decide)⟩

/-- Claim C5: with accent `Fluent`, when the alpha byte of the
channel-reordered color is `0x00` the applier forces it to `0x01` and keeps
the low 24 bits; a nonzero alpha byte (e.g. `0x10`) passes through
unchanged, and no other accent kind receives the correction. -/
theorem C5_fluent_zero_alpha (m : Window → Option Bool) (w : Window) (c : ℕ)
    (a : ACCENT) :
    ((SetWindowBlur true m w ACCENT.ACCENT_ENABLE_FLUENT c).2.composited
      = some (ACCENT.ACCENT_ENABLE_FLUENT,
          if swapRB c >>> 24 = 0 then 2 ^ 24 + swapRB c % 2 ^ 24 else swapRB c))
    ∧ (swapRB c >>> 24 = 0 →
        (2 ^ 24 + swapRB c % 2 ^ 24) % 2 ^ 24 = swapRB c % 2 ^ 24
        ∧ (2 ^ 24 + swapRB c % 2 ^ 24) / 2 ^ 24 = 1)
    ∧ (a ≠ ACCENT.ACCENT_NORMAL → a ≠ ACCENT.ACCENT_ENABLE_FLUENT →
        (SetWindowBlur true m w a c).2.composited = some (a, swapRB c))
    ∧ (SetWindowBlur true m w ACCENT.ACCENT_ENABLE_FLUENT 0x00ABCDEF).2.composited
        = some (ACCENT.ACCENT_ENABLE_FLUENT, 0x01EFCDAB)
    ∧ (SetWindowBlur true m w ACCENT.ACCENT_ENABLE_FLUENT 0x10ABCDEF).2.composited
        = some (ACCENT.ACCENT_ENABLE_FLUENT, 0x10EFCDAB) := by
  refine ⟨?_, fun _ => ⟨by omega, by omega⟩, fun h1 h2 => ?_, by rfl, by rfl⟩
  · simp [SetWindowBlur, and_low24, Nat.shiftLeft_eq]
  · rw [swb_other_accent m w c a h1 h2]

/-- Witness for C5: a non-Fluent, non-Normal accent receives no alpha
correction. -/
theorem C5_witness :
    (ACCENT.ACCENT_ENABLE_BLURBEHIND ≠ ACCENT.ACCENT_NORMAL) ∧
    (ACCENT.ACCENT_ENABLE_BLURBEHIND ≠ ACCENT.ACCENT_ENABLE_FLUENT) ∧
    (SetWindowBlur true (fun _ => none) 3 ACCENT.ACCENT_ENABLE_BLURBEHIND
      0x00FF0000).2.composited
      = some (ACCENT.ACCENT_ENABLE_BLURBEHIND, swapRB 0x00FF0000) :=
  ⟨by decide, by decide,
    (C5_fluent_zero_alpha (fun _ => none) 3 0x00FF0000
      ACCENT.ACCENT_ENABLE_BLURBEHIND).2.2.1 (by decide) (by decide)⟩

/-- Claim C3: a `Normal` call never issues the compositing call; it sends
`WM_THEMECHANGED` exactly when the per-surface memo is absent or false;
consecutive `Normal` calls send no further notification; a non-Normal call
resets the memo so the next `Normal` call notifies again. -/
theorem C3_normal_memoization (m : Window → Option Bool) (w : Window)
    (c1 c2 c3 c4 c5 : ℕ) (a : ACCENT) (ha : a ≠ ACCENT.ACCENT_NORMAL) :
    (SetWindowBlur true m w ACCENT.ACCENT_NORMAL c1).2.composited = none
    ∧ ((SetWindowBlur true m w ACCENT.ACCENT_NORMAL c1).2.themeChanged = true ↔
        (m w = none ∨ m w = some false))
    ∧ (SetWindowBlur true (SetWindowBlur true m w ACCENT.ACCENT_NORMAL c1).1 w
        ACCENT.ACCENT_NORMAL c2).2.themeChanged = false
    ∧ (SetWindowBlur true (SetWindowBlur true m w ACCENT.ACCENT_NORMAL c1).1 w
        ACCENT.ACCENT_NORMAL c2).2.composited = none
    ∧ (SetWindowBlur true (SetWindowBlur true (SetWindowBlur true m w
        ACCENT.ACCENT_NORMAL c1).1 w ACCENT.ACCENT_NORMAL c2).1 w
        ACCENT.ACCENT_NORMAL c3).2.themeChanged = false
    ∧ (SetWindowBlur true m w a c4).1 w = some false
    ∧ (SetWindowBlur true (SetWindowBlur true m w a c4).1 w
        ACCENT.ACCENT_NORMAL c5).2.themeChanged = true := by
  have h1 : (SetWindowBlur true m w ACCENT.ACCENT_NORMAL c1).1 w = some true :=
    swb_normal_memo_true m w c1
  have e2 := swb_normal_skip _ w c2 h1
  have h2 : (SetWindowBlur true (SetWindowBlur true m w ACCENT.ACCENT_NORMAL c1).1 w
      ACCENT.ACCENT_NORMAL c2).1 w = some true := by
    rw [e2]
    exact h1
  have e3 := swb_normal_skip _ w c3 h2
  have h6 : (SetWindowBlur true m w a c4).1 w = some false :=
    swb_nonnormal_memo m w c4 a ha
  refine ⟨?_, ?_, ?_, ?_, ?_, h6, ?_⟩
  · rcases swb_memo_cases m w with h | h
    · rw [swb_normal_skip m w c1 h]
    · rw [swb_normal_send m w c1 h]
  · rcases swb_memo_cases m w with h | h
    · rw [swb_normal_skip m w c1 h]
      simp [h]
    · rw [swb_normal_send m w c1 h]
      simp [h]
  · rw [e2]
  · rw [e2]
  · rw [e3]
  · rw [swb_normal_send _ w c5 (Or.inr h6)]

/-- Witness for C3: after a non-Normal call, a `Normal` call notifies. -/
theorem C3_witness :
    (ACCENT.ACCENT_ENABLE_GRADIENT ≠ ACCENT.ACCENT_NORMAL) ∧
    (SetWindowBlur true (SetWindowBlur true (fun _ => none) 4
      ACCENT.ACCENT_ENABLE_GRADIENT 7).1 4 ACCENT.ACCENT_NORMAL 9).2.themeChanged = true :=
  ⟨by decide, (C3_normal_memoization (fun _ => none) 4 1 2 3 7 9
    ACCENT.ACCENT_ENABLE_GRADIENT (by decide)).2.2.2.2.2.2⟩

/-- Claim C6: `TogglePeek` issues the OS-level layered/transparent toggle
exactly when the requested visibility differs from the cached value or the
cached taskbar differs from the current primary taskbar, and afterwards both
cached values equal the request; consequently the sequence
True, True, False from cached state True on an unchanged taskbar fires the
toggle exactly once, on the False call. -/
theorem C6_peek_hysteresis (main : Window) (cache : PeekCache) (status : Bool) :
    ((TogglePeek main cache status).2 = true ↔
      (status ≠ cache.cached_peek ∨ cache.cached_taskbar ≠ main))
    ∧ (TogglePeek main cache status).1 = ⟨status, main⟩
    ∧ (TogglePeek main ⟨true, main⟩ true).2 = false
    ∧ (TogglePeek main (TogglePeek main ⟨true, main⟩ true).1 true).2 = false
    ∧ (TogglePeek main (TogglePeek main (TogglePeek main ⟨true, main⟩ true).1 true).1
        false).2 = true := by
  refine ⟨?_, ?_, by simp [TogglePeek], by simp [TogglePeek], by simp [TogglePeek]⟩
  · unfold TogglePeek
    split
    · next h => simp [h]
    · next h => simp [h]
  · unfold TogglePeek
    split
    · rfl
    · next h =>
      push_neg at h
      obtain ⟨h1, h2⟩ := h
      cases cache
      simp_all

/-- Claim C8: on loop exit, a new-instance exit skips saving, peek restore
and appearance reset; any other exit restores peek and resets every taskbar
to the OS-default accent, and saves the configuration exactly when the exit
is not \"exit without saving\". -/
theorem C8_shutdown_logic (reason : EXITREASON) (tb : TaskbarMap) :
    (reason = EXITREASON.NewInstance →
      wWinMainShutdown reason tb = ⟨false, false, []⟩)
    ∧ (reason ≠ EXITREASON.NewInstance →
        ((wWinMainShutdown reason tb).savedConfig = true ↔
          reason ≠ EXITREASON.UserActionNoSave)
        ∧ (wWinMainShutdown reason tb).peekRestored = true
        ∧ (wWinMainShutdown reason tb).resetCalls
            = tb.map (fun e => (e.2.1, ACCENT.ACCENT_NORMAL, 0))) := by
  cases reason <;> simp [wWinMainShutdown]

/-- Witness for C8 at an ordinary user exit with one taskbar. -/
theorem C8_witness :
    (EXITREASON.UserAction ≠ EXITREASON.NewInstance) ∧
    (((wWinMainShutdown EXITREASON.UserAction [(0, 5, MONITORSTATE.Normal)]).savedConfig
        = true ↔ EXITREASON.UserAction ≠ EXITREASON.UserActionNoSave)
      ∧ (wWinMainShutdown EXITREASON.UserAction
          [(0, 5, MONITORSTATE.Normal)]).peekRestored = true
      ∧ (wWinMainShutdown EXITREASON.UserAction
          [(0, 5, MONITORSTATE.Normal)]).resetCalls
          = [(0, 5, MONITORSTATE.Normal)].map
              (fun e => (e.2.1, ACCENT.ACCENT_NORMAL, 0))) :=
  ⟨by decide,
    (C8_shutdown_logic EXITREASON.UserAction [(0, 5, MONITORSTATE.Normal)]).2 (by decide)⟩

/-- Claim C9: `RefreshHandles` clears the old map, then inserts the primary
taskbar's display and one entry per secondary found, all `Normal`; the
result is independent of the old map, every entry is `Normal`, the key set
is exactly the discovered displays, and keys are unique. -/
theorem C9_refresh_rebuild (monitorOf : Window → HMONITOR) (old : TaskbarMap)
    (main : Window) (secs : List Window) :
    (RefreshHandles monitorOf old main secs = RefreshHandles monitorOf [] main secs)
    ∧ (∀ e ∈ (RefreshHandles monitorOf old main secs).2, e.2.2 = MONITORSTATE.Normal)
    ∧ (∀ k, (∃ e ∈ (RefreshHandles monitorOf old main secs).2, e.1 = k) ↔
        (k = monitorOf main ∨ ∃ s ∈ secs, monitorOf s = k))
    ∧ ((RefreshHandles monitorOf old main secs).2.map (fun e => e.1)).Nodup := by
  have hm0 : mapAssign [] (monitorOf main) (main, MONITORSTATE.Normal)
      = [(monitorOf main, main, MONITORSTATE.Normal)] := rfl
  refine ⟨rfl, ?_, ?_, ?_⟩
  · intro e he
    simp only [RefreshHandles] at he
    rcases refresh_fold_mem secs _ e he with h | ⟨s, _, rfl⟩
    · rw [hm0] at h
      rw [List.mem_singleton.mp h]
    · rfl
  · intro k
    constructor
    · rintro ⟨e, he, rfl⟩
      simp only [RefreshHandles] at he
      rcases refresh_fold_mem secs _ e he with h | ⟨s, hs, rfl⟩
      · rw [hm0] at h
        rw [List.mem_singleton.mp h]
        exact Or.inl rfl
      · exact Or.inr ⟨s, hs, rfl⟩
    · intro h
      simp only [RefreshHandles]
      apply refresh_fold_key_complete
      rcases h with rfl | ⟨s, hs, hk⟩
      · left
        rw [hm0]
        exact ⟨(monitorOf main, main, MONITORSTATE.Normal), List.mem_singleton.mpr rfl, rfl⟩
      · right
        exact ⟨s, hs, hk⟩
  · simp only [RefreshHandles]
    apply refresh_fold_nodup
    rw [hm0]
    simp

/-- Witness for C9: the primary entry is present and `Normal` after a
rebuild from a stale map. -/
theorem C9_witness :
    ((3 : HMONITOR), (3 : Window), MONITORSTATE.Normal) ∈
        (RefreshHandles (fun w => w) [(9, 9, MONITORSTATE.WindowMaximised)] 3 [7]).2 ∧
    ((3 : HMONITOR), (3 : Window), MONITORSTATE.Normal).2.2 = MONITORSTATE.Normal :=
  ⟨by decide,
    (C9_refresh_rebuild (fun w => w) [(9, 9, MONITORSTATE.WindowMaximised)] 3 [7]).2.1
      ((3 : HMONITOR), (3 : Window), MONITORSTATE.Normal) (by decide)⟩

/-- Claim C1: on a tick on which the reconciliation pass runs, every display
whose final state is `WindowMaximised` had a maximised window observed on it
(with dynamic windows enabled), every display whose final state is
`StartMenuOpen` was marked by the dynamic-start step, and every display with
neither observation ends the pass in `Normal`. -/
theorem C1_pass_reset_invariant (api : Bool) (cfg : Config) (env : TickEnv)
    (counter : Nat) (st : RunState) (hc : 10 ≤ counter)
    (v : Nat × TaskbarMap × TickEffects)
    (hv : tickView (SetTaskbarBlur api cfg env counter st) = some v) :
    ∀ e ∈ v.2.1,
      (e.2.2 = MONITORSTATE.WindowMaximised →
        cfg.DYNAMIC_WS = true ∧ ∃ w ∈ env.windows, maximisedOn w e.1 = true)
      ∧ (e.2.2 = MONITORSTATE.StartMenuOpen →
          cfg.DYNAMIC_START = true ∧ env.startVisible = true ∧ env.startMonitor = e.1)
      ∧ ((¬ ∃ w ∈ env.windows, maximisedOn w e.1 = true) →
          ¬ (cfg.DYNAMIC_START = true ∧ env.startVisible = true ∧ env.startMonitor = e.1) →
          e.2.2 = MONITORSTATE.Normal) := by
  intro e he
  rcases tick_pass_decomp hc hv with ⟨tb1, ssp1, tb2, h1, h2, rfl⟩
  have hp := pass_taskbars_provenance h1 h2 e he
  refine ⟨?_, ?_, ?_⟩
  · intro hM
    rcases hp with hn | hm | hs
    · rw [hM] at hn
      cases hn
    · exact ⟨hm.2.1, hm.2.2⟩
    · rw [hM] at hs
      cases hs.1
  · intro hS
    rcases hp with hn | hm | hs
    · rw [hS] at hn
      cases hn
    · rw [hS] at hm
      cases hm.1
    · exact ⟨hs.2.1, hs.2.2.1, hs.2.2.2⟩
  · intro hnoMax hnoStart
    rcases hp with hn | hm | hs
    · exact hn
    · exact absurd hm.2.2 hnoMax
    · exact absurd ⟨hs.2.1, hs.2.2.1, hs.2.2.2⟩ hnoStart

/-- Witness for C1: a pass with no windows leaves the single display
`Normal`. -/
theorem C1_witness :
    10 ≤ 10 ∧
    tickView (SetTaskbarBlur false
        ⟨false, false, false, false, PEEK.Disabled, ACCENT.ACCENT_ENABLE_BLURBEHIND,
          ACCENT.ACCENT_ENABLE_BLURBEHIND, 0, 0⟩
        ⟨[], false, 0, false⟩ 10
        ⟨100, [(0, 100, MONITORSTATE.Normal)], true, fun _ => none, ⟨true, 100⟩⟩)
      = some (1, [(0, 100, MONITORSTATE.Normal)],
          ⟨true, false, true, true, [(100, ACCENT.ACCENT_ENABLE_BLURBEHIND, 0)]⟩) ∧
    ((0, 100, MONITORSTATE.Normal) : TaskbarEntry).2.2 = MONITORSTATE.Normal :=
  ⟨by decide, by decide,
    (C1_pass_reset_invariant false
      ⟨false, false, false, false, PEEK.Disabled, ACCENT.ACCENT_ENABLE_BLURBEHIND,
        ACCENT.ACCENT_ENABLE_BLURBEHIND, 0, 0⟩
      ⟨[], false, 0, false⟩ 10
      ⟨100, [(0, 100, MONITORSTATE.Normal)], true, fun _ => none, ⟨true, 100⟩⟩
      (by decide)
      (1, [(0, 100, MONITORSTATE.Normal)],
        ⟨true, false, true, true, [(100, ACCENT.ACCENT_ENABLE_BLURBEHIND, 0)]⟩)
      (by decide)
      (0, 100, MONITORSTATE.Normal) (by decide)).2.2 (by simp) (by simp)⟩

/-- Claim C4 (counterexample): a maximised window on a display absent from
the tracker makes the per-window visitor propagate the lookup failure
instead of skipping the window. -/
theorem C4_counterexample :
    EnumWindowsProcess
      ⟨true, false, false, false, PEEK.Dynamic, ACCENT.ACCENT_ENABLE_BLURBEHIND,
        ACCENT.ACCENT_ENABLE_BLURBEHIND, 0, 0⟩
      100 ([(0, 100, MONITORSTATE.Normal)], false)
      ⟨true, false, false, SHOWSTATE.SW_MAXIMIZE, true, 1, true⟩
    = .error () := by rfl

/-- Claim C4 (amended): the `taskbars.at` lookup failure is not caught: a
visible, non-cloaked, non-blacklisted window that is maximised on the
current desktop and whose display key is absent makes `EnumWindowsProcess`
propagate the error, and the error aborts the rest of the enumeration. -/
theorem C4_lookup_failure_propagates (cfg : Config) (main : Window)
    (tb : TaskbarMap) (p : Bool) (w : WinObs)
    (hvis : w.visible = true) (hcl : w.cloaked = false) (hbl : w.blacklisted = false)
    (hmax : w.state = SHOWSTATE.SW_MAXIMIZE) (hdesk : w.on_current_desktop = true)
    (hmiss : mapAt tb w.monitor = .error ()) :
    EnumWindowsProcess cfg main (tb, p) w = .error ()
    ∧ ∀ ws, EnumWindows cfg main (tb, p) (w :: ws) = .error () := by
  have h : EnumWindowsProcess cfg main (tb, p) w = .error () := by
    simp [EnumWindowsProcess, hvis, hcl, hbl, hmax, hdesk, hmiss]
  refine ⟨h, fun ws => ?_⟩
  simp only [EnumWindows]
  rw [h]

/-- Witness for C4 (amended): concrete instance of the propagated failure. -/
theorem C4_witness :
    mapAt [(0, 100, MONITORSTATE.Normal)] 1 = .error () ∧
    EnumWindowsProcess
      ⟨true, false, false, false, PEEK.DynamicGenerous, ACCENT.ACCENT_ENABLE_BLURBEHIND,
        ACCENT.ACCENT_ENABLE_BLURBEHIND, 0, 0⟩
      100 ([(0, 100, MONITORSTATE.Normal)], false)
      ⟨true, false, false, SHOWSTATE.SW_MAXIMIZE, true, 1, false⟩
    = .error () :=
  ⟨by rfl,
    (C4_lookup_failure_propagates
      ⟨true, false, false, false, PEEK.DynamicGenerous, ACCENT.ACCENT_ENABLE_BLURBEHIND,
        ACCENT.ACCENT_ENABLE_BLURBEHIND, 0, 0⟩
      100 [(0, 100, MONITORSTATE.Normal)] false
      ⟨true, false, false, SHOWSTATE.SW_MAXIMIZE, true, 1, false⟩
      (by decide) (by decide) (by decide) (by decide) (by decide) (by rfl)).1⟩

/-- Claim C7 (counterexample): with dynamic windows off and peek policy
`Disabled`, a pass still runs but the window enumerator is not invoked, even
though a maximised window is present; so the enumerator does not run
\"regardless of the current configuration values\". -/
theorem C7_counterexample :
    (tickView (SetTaskbarBlur false
        ⟨false, false, false, false, PEEK.Disabled, ACCENT.ACCENT_ENABLE_BLURBEHIND,
          ACCENT.ACCENT_ENABLE_BLURBEHIND, 0, 0⟩
        ⟨[⟨true, false, false, SHOWSTATE.SW_MAXIMIZE, true, 0, true⟩], false, 0, false⟩ 10
        ⟨100, [(0, 100, MONITORSTATE.Normal)], true, fun _ => none, ⟨true, 100⟩⟩)).map
      (fun v => (v.2.2.passRan, v.2.2.enumRan, v.2.1))
    = some (true, false, [(0, 100, MONITORSTATE.Normal)]) := by decide

/-- Claim C7 (amended): a pass runs exactly on ticks with `counter >= 10`;
the enumerator runs on a pass exactly when dynamic windows or a dynamic peek
policy is configured; `TogglePeek` is invoked exactly on pass ticks; the
counter restarts at 1 after a pass and increments otherwise; and on every
tick the appearance applier is invoked once per tracked display with that
display's current state. -/
theorem C7_tick_structure (api : Bool) (cfg : Config) (env : TickEnv)
    (counter : Nat) (st : RunState) (v : Nat × TaskbarMap × TickEffects)
    (hv : tickView (SetTaskbarBlur api cfg env counter st) = some v) :
    (v.2.2.passRan = true ↔ 10 ≤ counter)
    ∧ (v.2.2.enumRan = true ↔
        (10 ≤ counter ∧ (cfg.DYNAMIC_WS = true ∨ cfg.PEEK = PEEK.Dynamic ∨
          cfg.PEEK = PEEK.DynamicGenerous)))
    ∧ v.2.2.togglePeekInvoked = v.2.2.passRan
    ∧ v.1 = (if 10 ≤ counter then 1 else counter + 1)
    ∧ v.2.2.applied = v.2.1.map (fun e => (e.2.1, applyCall cfg e.2)) := by
  by_cases hc : 10 ≤ counter
  · rcases tick_pass_decomp hc hv with ⟨tb1, ssp1, tb2, h1, h2, rfl⟩
    refine ⟨by simp [hc], ?_, rfl, by simp [hc], rfl⟩
    simp only [dynOn, Bool.or_eq_true, decide_eq_true_eq]
    constructor
    · intro h
      exact ⟨hc, by tauto⟩
    · intro h
      tauto
  · rw [tick_nopass hc] at hv
    rw [Option.some.injEq] at hv
    subst hv
    exact ⟨by simp [hc], by simp [hc], rfl, by simp [hc], rfl⟩

/-- Witness for C7 (amended): on the no-windows pass tick, the pass ran and
the applier was invoked for the single display. -/
theorem C7_witness :
    tickView (SetTaskbarBlur false
        ⟨false, false, false, false, PEEK.Disabled, ACCENT.ACCENT_ENABLE_BLURBEHIND,
          ACCENT.ACCENT_ENABLE_BLURBEHIND, 0, 0⟩
        ⟨[], false, 0, false⟩ 10
        ⟨100, [(0, 100, MONITORSTATE.Normal)], true, fun _ => none, ⟨true, 100⟩⟩)
      = some (1, [(0, 100, MONITORSTATE.Normal)],
          ⟨true, false, true, true, [(100, ACCENT.ACCENT_ENABLE_BLURBEHIND, 0)]⟩) ∧
    (((1, [(0, 100, MONITORSTATE.Normal)],
        ⟨true, false, true, true, [(100, ACCENT.ACCENT_ENABLE_BLURBEHIND, 0)]⟩) :
          Nat × TaskbarMap × TickEffects).2.2.passRan = true ↔ 10 ≤ 10) :=
  ⟨by decide,
    (C7_tick_structure false
      ⟨false, false, false, false, PEEK.Disabled, ACCENT.ACCENT_ENABLE_BLURBEHIND,
        ACCENT.ACCENT_ENABLE_BLURBEHIND, 0, 0⟩
      ⟨[], false, 0, false⟩ 10
      ⟨100, [(0, 100, MONITORSTATE.Normal)], true, fun _ => none, ⟨true, 100⟩⟩
      (1, [(0, 100, MONITORSTATE.Normal)],
        ⟨true, false, true, true, [(100, ACCENT.ACCENT_ENABLE_BLURBEHIND, 0)]⟩)
      (by decide)).1⟩

end TTB
